import Mathlib

/-!
Verification of the NTSC-CRT core (src/crt.c): a shallow embedding of the
integer-only NTSC composite video encoder and decoder, together with proofs
about the claims of the specification.

Conventions of the embedding:
* C `int` values are modelled as `Int`; machine wrap-around is applied
  explicitly (`wrap32`) where the source relies on it.
* C arithmetic right shift `x >> n` on a (possibly negative) two's-complement
  int is floor division by `2 ^ n`; Lean `Int` division `/` (Euclidean
  division) coincides with floor division for positive divisors, so the
  shift is embedded as `sar x n = x / 2 ^ n`.
* C truncating division and remainder on int are `Int.tdiv` / `Int.tmod`.
* C `x & 0xff` (and other low-bit masks) on a two's-complement int equals the
  nonnegative remainder `x % 256`, which is Lean `Int.emod`.
* Buffers are total functions from the integer index to the stored value;
  a store is a pointwise functional override.  Packed output pixels are kept
  as `Nat` bit patterns, where `&&&`, `>>>`, `|||` match the C operations on
  their nonnegative values.
* The global filter instances of the source are threaded explicitly (a
  `Globals` value), as the specification prescribes for reimplementations;
  their coefficient fields are arbitrary, covering every configuration.
-/

/-- Modelled from the spec: the fixed design constants of crt.h, which is not
part of src/.  The spec fixes them only through timing proportions: a full
scanline lasts 63500 ns at the line frequency of 14.31818 MHz given in
src/crt.c (L_FREQ), hence 909 samples per line; one NTSC field has 262 lines;
the visible band is lines 21 to 260; the color subcarrier takes 4 samples per
cycle (the 4-phase alternation of the source). -/
def CRT_HRES : Nat := 909

/-- Modelled from the spec: number of scan lines of the signal buffer. -/
def CRT_VRES : Nat := 262

/-- Modelled from the spec: first line carrying picture. -/
def CRT_TOP : Nat := 21

/-- Modelled from the spec: one past the last line carrying picture. -/
def CRT_BOT : Nat := 261

/-- Number of lines with picture, as in crt.h. -/
def CRT_LINES : Nat := CRT_BOT - CRT_TOP

/-- Total number of samples of the analog signal buffer. -/
def CRT_INPUT_SIZE : Nat := CRT_HRES * CRT_VRES

/-- Modelled from the spec: samples per color subcarrier cycle. -/
def CRT_CB_FREQ : Nat := 4

/- Scanline timing partition, from src/crt.c. -/

def FP_ns : Nat := 1500
def SYNC_ns : Nat := 4700
def BW_ns : Nat := 600
def CB_ns : Nat := 2500
def BP_ns : Nat := 1600
def AV_ns : Nat := 52600
def HB_ns : Nat := FP_ns + SYNC_ns + BW_ns + CB_ns + BP_ns
def LINE_ns : Nat := FP_ns + SYNC_ns + BW_ns + CB_ns + BP_ns + AV_ns

/-- Nanosecond offset to sample position on the line (ns2pos of crt.c). -/
def ns2pos (ns : Nat) : Nat := ns * CRT_HRES / LINE_ns

def SYNC_BEG : Nat := ns2pos FP_ns
def BW_BEG : Nat := ns2pos (FP_ns + SYNC_ns)
def CB_BEG : Nat := ns2pos (FP_ns + SYNC_ns + BW_ns)
def AV_BEG : Nat := ns2pos HB_ns
def AV_LEN : Nat := ns2pos AV_ns

def CB_CYCLES : Nat := 10

/- IRE levels, from src/crt.c. -/

def WHITE_LEVEL : Int := 100
def BURST_LEVEL : Int := 20
def BLACK_LEVEL : Int := 7
def BLANK_LEVEL : Int := 0
def SYNC_LEVEL : Int := -40

/-- C arithmetic right shift of a two's-complement int: floor division by a
power of two.  Lean Int division is Euclidean, which equals floor division
for the positive divisor `2 ^ n`. -/
def sar (x : Int) (n : Nat) : Int := x / 2 ^ n

/-- POSMOD of crt.c: `((x % n) + n) % n` with the C truncating `%`, which
maps any x into [0, n) for positive n. -/
def POSMOD (x n : Int) : Int := Int.tmod (Int.tmod x n + n) n

/-- CC_PHASE of crt.c: every other line has reversed subcarrier phase. -/
def CC_PHASE (ln : Int) : Int := if ln % 2 = 1 then -1 else 1

/-- The color carrier phase table `cc[4] = do 0, 1, 0, -1 od` of crt_2ntsc,
indexed by `i & 3` of a nonnegative counter. -/
def ccTab (j : Nat) : Int :=
  match j % 4 with
  | 0 => 0
  | 1 => 1
  | 2 => 0
  | _ => -1

/-- 32-bit two's-complement wrap of an int (the C source relies on int
arithmetic wrapping in the linear congruential noise generator). -/
def wrap32 (x : Int) : Int := (x + 2 ^ 31) % 2 ^ 32 - 2 ^ 31

/-!  Three band equalizer (struct EQF, init parameters threaded explicitly;
`lf`, `hf` and the gains are the configuration, the cascade stages `fL`,
`fH` and the history `h` are the per-scanline state). -/

def EQ_P : Nat := 16

/-- Rounding constant EQ_R = 1 shifted left by EQ_P - 1. -/
def EQ_R : Int := 2 ^ (EQ_P - 1)

structure EQF where
  lf : Int
  hf : Int
  g0 : Int
  g1 : Int
  g2 : Int
  fL0 : Int
  fL1 : Int
  fL2 : Int
  fL3 : Int
  fH0 : Int
  fH1 : Int
  fH2 : Int
  fH3 : Int
  h0 : Int
  h1 : Int
  h2 : Int

/-- reset_eq of crt.c: zero the cascades and the history, keep the
configuration. -/
def reset_eq (f : EQF) : EQF :=
  { f with fL0 := 0, fL1 := 0, fL2 := 0, fL3 := 0,
           fH0 := 0, fH1 := 0, fH2 := 0, fH3 := 0,
           h0 := 0, h1 := 0, h2 := 0 }

/-- The cascade update of eqf (crt.c lines 249 to 255): stage 0 smooths the
input, each later stage smooths the already-updated previous stage. -/
def eqfCascade (f : EQF) (s : Int) : EQF :=
  let fL0 := f.fL0 + sar (f.lf * (s - f.fL0) + EQ_R) EQ_P
  let fH0 := f.fH0 + sar (f.hf * (s - f.fH0) + EQ_R) EQ_P
  let fL1 := f.fL1 + sar (f.lf * (fL0 - f.fL1) + EQ_R) EQ_P
  let fH1 := f.fH1 + sar (f.hf * (fH0 - f.fH1) + EQ_R) EQ_P
  let fL2 := f.fL2 + sar (f.lf * (fL1 - f.fL2) + EQ_R) EQ_P
  let fH2 := f.fH2 + sar (f.hf * (fH1 - f.fH2) + EQ_R) EQ_P
  let fL3 := f.fL3 + sar (f.lf * (fL2 - f.fL3) + EQ_R) EQ_P
  let fH3 := f.fH3 + sar (f.hf * (fH2 - f.fH3) + EQ_R) EQ_P
  { f with fL0 := fL0, fL1 := fL1, fL2 := fL2, fL3 := fL3,
           fH0 := fH0, fH1 := fH1, fH2 := fH2, fH3 := fH3 }

/-- The three bands of eqf before gain scaling (crt.c lines 257 to 259), read
from the state after the cascade update and before the history shift. -/
def eqfBands (f : EQF) : Int × Int × Int :=
  (f.fL3, f.fH3 - f.fL3, f.h2 - f.fH3)

/-- Sum of the three bands before gain scaling. -/
def eqfBandSum (f : EQF) : Int :=
  (eqfBands f).1 + (eqfBands f).2.1 + (eqfBands f).2.2

/-- The history shift of eqf (crt.c lines 265 to 268). -/
def eqfPush (f : EQF) (s : Int) : EQF :=
  { f with h0 := s, h1 := f.h0, h2 := f.h1 }

/-- eqf of crt.c: one filter step, returning the new state and the output
(the gain-scaled band sum). -/
def eqf (f : EQF) (s : Int) : EQF × Int :=
  let f1 := eqfCascade f s
  let b := eqfBands f1
  let y := sar (b.1 * f1.g0) EQ_P + sar (b.2.1 * f1.g1) EQ_P
             + sar (b.2.2 * f1.g2) EQ_P
  (eqfPush f1 s, y)

/-- Run eqf over a list of samples, collecting the outputs. -/
def eqRun (f : EQF) : List Int → List Int × EQF
  | [] => ([], f)
  | s :: rest =>
    let (f1, y) := eqf f s
    let (ys, f2) := eqRun f1 rest
    (y :: ys, f2)

/-!  Single-pole IIR low pass (struct IIRLP); the coefficient `c` is the
configuration, `h` is the history. -/

def EXP_P : Nat := 11

/-- EXP_MUL of crt.c: fixed point multiply with right shift by EXP_P. -/
def EXP_MUL (x y : Int) : Int := sar (x * y) EXP_P

structure IIRLP where
  c : Int
  h : Int

/-- reset_iir of crt.c: zero the history only. -/
def reset_iir (f : IIRLP) : IIRLP := { f with h := 0 }

/-- iirf of crt.c (HIPASS disabled): one low-pass step, returning the new
state and the output, which is the new history value. -/
def iirf (f : IIRLP) (s : Int) : IIRLP × Int :=
  let h := f.h + EXP_MUL (s - f.h) f.c
  ({ f with h := h }, h)

/-!  Context and settings (struct CRT and struct NTSC_SETTINGS of crt.h,
modelled from the spec: calibration parameters, persistent sync-tracking
fields, the analog signal buffer, its noise-perturbed working copy, and the
bound output buffer).  Buffers are total functions on the integer index. -/

structure CRT where
  analog : Int → Int
  inp : Int → Int
  hsync : Int
  vsync : Int
  saturation : Int
  brightness : Int
  contrast : Int
  black_point : Int
  white_point : Int
  outw : Int
  outh : Int
  out : Int → Nat

structure NTSC_SETTINGS where
  rgb : Int → Int
  w : Int
  h : Int
  field : Int
  as_color : Int

/-- The file-scope filter instances of crt.c (eqY, eqI, eqQ, iirY, iirI,
iirQ), threaded explicitly.  Only the configuration parts matter: every use
in the encode and decode paths is preceded by a reset of the state parts. -/
structure Globals where
  eqY : EQF
  eqI : EQF
  eqQ : EQF
  iirY : IIRLP
  iirI : IIRLP
  iirQ : IIRLP

/-!  Encoder, crt_2ntsc of crt.c.

The first pass writes the per-line timing waveform with constant stores over
index ranges; it is embedded pointwise: the value of line n at sample t is
determined by the branch structure, later stores override earlier ones (the
color burst loop runs after the blanking stores, so it is tested first on
its window).  The unwritten tail of a visible video line keeps the old
buffer content. -/

/-- Destination width of the rendered active-video window:
`(AV_LEN * 55500) >> 16`. -/
def encDestW : Nat := AV_LEN * 55500 / 2 ^ 16

/-- Destination height of the rendered window: `(CRT_LINES * 63500) >> 16`. -/
def encDestH : Nat := CRT_LINES * 63500 / 2 ^ 16

/-- Horizontal offset xo before alignment:
`AV_BEG + 4 + (AV_LEN - destw) / 2`. -/
def encXO0 : Nat := AV_BEG + 4 + (AV_LEN - encDestW) / 2

/-- Horizontal offset aligned to a 4-sample boundary: `xo & ~3` clears the
low two bits of the nonnegative offset. -/
def encXO : Nat := encXO0 - encXO0 % 4

/-- Vertical offset yo: `CRT_TOP + 4 + (CRT_LINES - desth) / 2`. -/
def encYO : Nat := CRT_TOP + 4 + (CRT_LINES - encDestH) / 2

/-- Value written by the first pass of crt_2ntsc at line n, sample t; `old`
is the previous buffer content, kept where no store covers (n, t).  `field`
is the field bit (the source applies `s->field &= 1` first), `asColor` the
color-enable flag. -/
def encSyncLineAt (field : Int) (asColor : Int) (n t : Nat) (old : Int) : Int :=
  if n ≤ 3 ∨ (7 ≤ n ∧ n ≤ 9) then
    -- equalizing pulses
    if t < 4 * CRT_HRES / 100 then SYNC_LEVEL
    else if t < 50 * CRT_HRES / 100 then BLANK_LEVEL
    else if t < 54 * CRT_HRES / 100 then SYNC_LEVEL
    else if t < 100 * CRT_HRES / 100 then BLANK_LEVEL
    else old
  else if 4 ≤ n ∧ n ≤ 6 then
    -- vertical sync pulse, serration breakpoints differ between fields
    if t < (if field = 1 then 4 else 46) * CRT_HRES / 100 then SYNC_LEVEL
    else if t < 50 * CRT_HRES / 100 then BLANK_LEVEL
    else if t < 96 * CRT_HRES / 100 then SYNC_LEVEL
    else if t < 100 * CRT_HRES / 100 then BLANK_LEVEL
    else old
  else
    -- ordinary video line; the color burst loop runs last and overrides
    if asColor ≠ 0 ∧ CB_BEG ≤ t ∧ t < CB_BEG + CB_CYCLES * CRT_CB_FREQ then
      BLANK_LEVEL + ccTab (t % 4) * BURST_LEVEL
    else if t < SYNC_BEG then BLANK_LEVEL
    else if t < BW_BEG then SYNC_LEVEL
    else if t < AV_BEG then BLANK_LEVEL
    else if n < CRT_TOP ∧ t < CRT_HRES then BLANK_LEVEL
    else old

/-- The interlace field offset of the render pass:
`(s->field * s->h + desth) / desth / 2` with C truncating division. -/
def encFieldOffset (s : NTSC_SETTINGS) : Int :=
  Int.tdiv (Int.tdiv ((s.field % 2) * s.h + (encDestH : Int)) (encDestH : Int)) 2

/-- Source row selector syA (and syB with the extra desth / 2 rounding term)
of the render pass, already multiplied by the source width. -/
def encSrcRow (s : NTSC_SETTINGS) (y : Nat) (round : Int) : Int :=
  let sy := Int.tdiv ((y : Int) * s.h + round) (encDestH : Int) + encFieldOffset s
  (if sy ≥ s.h then s.h else sy) * s.w

/-- The blended RGB to YIQ conversion of the render pass at destination row
y, column x: picks the two source rows, extracts the channels of the two
packed pixels (two's-complement shift and mask embedded as floor division
and nonnegative remainder), and applies the fixed-point color matrix. -/
def encYIQ (s : NTSC_SETTINGS) (y x : Nat) : Int × Int × Int :=
  let syA := encSrcRow s y 0
  let syB := encSrcRow s y (Int.tdiv (encDestH : Int) 2)
  let sx := Int.tdiv ((x : Int) * s.w) (encDestW : Int)
  let pA := s.rgb (sx + syA)
  let pB := s.rgb (sx + syB)
  let rA := (sar pA 16) % 256
  let gA := (sar pA 8) % 256
  let bA := pA % 256
  let rB := (sar pB 16) % 256
  let gB := (sar pB 8) % 256
  let bB := pB % 256
  (sar (19595 * rA + 38470 * gA + 7471 * bA
      + 19595 * rB + 38470 * gB + 7471 * bB) 15,
   sar (39059 * rA - 18022 * gA - 21103 * bA
      + 39059 * rB - 18022 * gB - 21103 * bB) 15,
   sar (13894 * rA - 34275 * gA + 20382 * bA
      + 13894 * rB - 34275 * gB + 20382 * bB) 15)

/-- One column step of the render pass: bandlimit Y, I, Q through the three
IIR low-pass states, modulate chroma onto the carrier, build the composite
IRE sample and clamp it to [0, 110].  Of the context only the black point
and the white point are read (bp, wp). -/
def encColStep (s : NTSC_SETTINGS) (bp wp : Int) (y x : Nat)
    (st : IIRLP × IIRLP × IIRLP) : (IIRLP × IIRLP × IIRLP) × Int :=
  let f := encYIQ s y x
  let (iY, fy) := iirf st.1 f.1
  let (iI, oi) := iirf st.2.1 f.2.1
  let (iQ, oq) := iirf st.2.2 f.2.2
  let ph := CC_PHASE ((y : Int) + (encYO : Int))
  let fi := oi * ph * ccTab (x % 4)
  let fq := oq * ph * ccTab ((x + 3) % 4)
  let ire0 := BLACK_LEVEL + bp
      + sar ((fy + fi + fq) * Int.tdiv (WHITE_LEVEL * wp) 100) 10
  let ire := if ire0 < 0 then 0 else if ire0 > 110 then 110 else ire0
  ((iY, iI, iQ), ire)

/-- IIR states after processing the first x columns of destination row y;
the three filters are reset at the start of every row. -/
def encRowState (g : Globals) (s : NTSC_SETTINGS) (bp wp : Int) (y : Nat) :
    Nat → IIRLP × IIRLP × IIRLP
  | 0 => (reset_iir g.iirY, reset_iir g.iirI, reset_iir g.iirQ)
  | x + 1 => (encColStep s bp wp y x (encRowState g s bp wp y x)).1

/-- The composite sample stored by the render pass at destination row y,
column x. -/
def encIreAt (g : Globals) (s : NTSC_SETTINGS) (bp wp : Int) (y x : Nat) : Int :=
  (encColStep s bp wp y x (encRowState g s bp wp y x)).2

/-- crt_2ntsc of crt.c: overwrite the analog buffer with the synthetic frame.
Pass one writes the timing waveform of every line; pass two overrides the
centered destination window of the visible band with the rendered composite
samples (each sample of that window is written exactly once, with the value
of the sequential in-row IIR recurrence). -/
def crt_2ntsc (g : Globals) (v : CRT) (s : NTSC_SETTINGS) : CRT :=
  { v with analog := fun idx =>
      if 0 ≤ idx ∧ idx < (CRT_INPUT_SIZE : Int) then
        let n := idx.toNat / CRT_HRES
        let t := idx.toNat % CRT_HRES
        if encYO ≤ n ∧ n < encYO + encDestH
            ∧ encXO ≤ t ∧ t < encXO + encDestW then
          encIreAt g s v.black_point v.white_point (n - encYO) (t - encXO)
        else
          encSyncLineAt (s.field % 2) s.as_color n t (v.analog idx)
      else v.analog idx }

/-!  Decoder, crt_draw of crt.c. -/

/-- One step of the function-local linear congruential noise generator
`rn = 214019 * rn + 140327895` with int wrap-around. -/
def lcg (r : Int) : Int := wrap32 (214019 * r + 140327895)

/-- The noise generator state after n steps. -/
def lcgIter (r : Int) : Nat → Int
  | 0 => r
  | n + 1 => lcg (lcgIter r n)

/-- The pseudo-random perturbation of one sample:
`((((rn >> 16) & 0xff) - 0x7f) * noise) >> 8`. -/
def noiseOf (rn noise : Int) : Int :=
  sar ((sar rn 16 % 256 - 0x7f) * noise) 8

/-- Signal plus noise, clamped to [-127, 127] (crt.c lines 504 to 506). -/
def noisedSample (a rn noise : Int) : Int :=
  let s := a + noiseOf rn noise
  if s > 127 then 127 else if s < -127 then -127 else s

/-- The working copy built by the noise injection loop: samples 0 to
CRT_INPUT_SIZE - 1 hold the clamped noisy signal (the i-th loop iteration
reads the generator state after i + 1 steps); everything outside the loop
range keeps the previous content of the copy. -/
def mkInp (analog inp0 : Int → Int) (noise rn : Int) : Int → Int :=
  fun i =>
    if 0 ≤ i ∧ i < (CRT_INPUT_SIZE : Int) then
      noisedSample (analog i) (lcgIter rn (i.toNat + 1)) noise
    else inp0 i

def HSYNC_WINDOW : Nat := 8
def VSYNC_WINDOW : Nat := 8

/-- Inner loop of the vertical sync search on one candidate line: running
sum of the samples left to right, stopping at the first position where the
sum falls to the threshold `100 * SYNC_LEVEL` or below; `none` when the line
ends without a crossing. -/
def lineScanGo (sig : Nat → Int) (s : Int) (j : Nat) : Nat → Option Nat
  | 0 => none
  | rem + 1 =>
    let s1 := s + sig j
    if s1 ≤ 100 * SYNC_LEVEL then some j else lineScanGo sig s1 (j + 1) rem

/-- Scan one line of the working copy for the vertical sync crossing. -/
def lineScan (inp : Int → Int) (line : Int) : Option Nat :=
  lineScanGo (fun j => inp (line * CRT_HRES + (j : Int))) 0 0 CRT_HRES

/-- Outer loop of the vertical sync search over the candidate window: the
counter i runs from -VSYNC_WINDOW; on a crossing the pair (line, j) is the
accepted line and the stop position; when the fuel runs out the line of the
last iteration is kept and j is CRT_HRES (the inner counter past the end,
as the goto-free fallthrough of the source leaves it). -/
def vsyncGo (inp : Int → Int) (vs : Int) (i : Int) : Nat → Int × Nat
  | 0 => (POSMOD (vs + i - 1) CRT_VRES, CRT_HRES)
  | rem + 1 =>
    let line := POSMOD (vs + i) CRT_VRES
    match lineScan inp line with
    | some j => (line, j)
    | none => vsyncGo inp vs (i + 1) rem

/-- The vertical sync acquisition of crt_draw (lines 519 to 536): the new
vsync line and the stop position j of the search. -/
def vsyncScan (inp : Int → Int) (vs : Int) : Int × Nat :=
  vsyncGo inp vs (-(VSYNC_WINDOW : Int)) (2 * VSYNC_WINDOW)

/-- Field parity inferred from the stop position:
`field = (j > (CRT_HRES / 2))`. -/
def vsyncFieldBit (j : Nat) : Int :=
  if CRT_HRES / 2 < j then 1 else 0

/-- Horizontal sync search (crt.c lines 570 to 575): integrate the samples
of the window around the previous offset, return the loop counter at the
break, or HSYNC_WINDOW when the sum never crosses `4 * SYNC_LEVEL`. -/
def hsyncGo (inp : Int → Int) (base : Int) (s : Int) (i : Int) : Nat → Int
  | 0 => i
  | rem + 1 =>
    let s1 := s + inp (base + (SYNC_BEG : Int) + i)
    if s1 ≤ 4 * SYNC_LEVEL then i else hsyncGo inp base s1 (i + 1) rem

/-- The four phase-bucketed chroma reference accumulators (ccref of
crt_draw), indexed by sample position modulo 4. -/
structure CC4 where
  c0 : Int
  c1 : Int
  c2 : Int
  c3 : Int

def CC4.get (c : CC4) (i : Nat) : Int :=
  match i % 4 with
  | 0 => c.c0
  | 1 => c.c1
  | 2 => c.c2
  | _ => c.c3

def CC4.set (c : CC4) (i : Nat) (v : Int) : CC4 :=
  match i % 4 with
  | 0 => { c with c0 := v }
  | 1 => { c with c1 := v }
  | 2 => { c with c2 := v }
  | _ => { c with c3 := v }

/-- The accumulator update of the burst recovery loop (crt.c lines 580 to
582): the previous value scaled by 127 / 128 with C truncating division,
plus the newly read sample. -/
def burstUpdate (c s : Int) : Int := Int.tdiv (c * 127) 128 + s

/-- The burst recovery loop: for i from CB_BEG over the burst window, update
bucket i mod 4 with the sample at base + i. -/
def burstGo (inp : Int → Int) (base : Int) (c : CC4) (i : Nat) : Nat → CC4
  | 0 => c
  | rem + 1 =>
    burstGo inp base (c.set i (burstUpdate (c.get i) (inp (base + (i : Int)))))
      (i + 1) rem

def burstLoop (inp : Int → Int) (base : Int) (c : CC4) : CC4 :=
  burstGo inp base c CB_BEG (CB_CYCLES * CRT_CB_FREQ)

/-- Start sample of the active video scan: xpos of crt_draw. -/
def scanXPos (hsync : Int) : Int :=
  POSMOD ((AV_BEG : Int) + hsync) (CRT_HRES : Int)

/-- Line of the active video scan: ypos of crt_draw. -/
def scanYPos (line vsync : Int) : Int :=
  POSMOD (line + vsync) (CRT_VRES : Int)

/-- Linear base index of the active video scan: pos of crt_draw; the fixed
in-scan offsets 0 to AV_LEN - 1 are added to it after the modulo
reductions. -/
def scanPos (hsync vsync line : Int) : Int :=
  scanXPos hsync + scanYPos line vsync * CRT_HRES

/-- The reference wave derived from the burst accumulators and the
saturation parameter (crt.c lines 594 to 597). -/
def waveTab (dci dcq saturation : Int) : CC4 :=
  ⟨-dcq * saturation, dci * saturation, dcq * saturation, -dci * saturation⟩

/-- Running sum of the scan line (crt.c lines 600 to 603). -/
def scanSumGo (inp : Int → Int) (pos : Int) (s : Int) (i : Nat) : Nat → Int
  | 0 => s
  | rem + 1 => scanSumGo inp pos (s + inp (pos + (i : Int))) (i + 1) rem

/-- The demodulation loop (crt.c lines 619 to 623): feed the luma and the
two synchronously detected chroma products through the three equalizers,
storing one YIQ triple per sample position; the C left shift by 4 of the
possibly negative luma output is multiplication by 16.  The local out array
of the source is uninitialized; unwritten entries are modelled as zero. -/
def eqLineGo (inp : Int → Int) (pos bright : Int) (wave : CC4)
    (stY stI stQ : EQF) (outA : Int → Int × Int × Int) (i : Int) :
    Nat → (Int → Int × Int × Int)
  | 0 => outA
  | rem + 1 =>
    let sig := inp (pos + i)
    let (stY1, oy) := eqf stY (sig + bright)
    let (stI1, oi) := eqf stI (sar (sig * wave.get ((i % 4).toNat)) 9)
    let (stQ1, oq) := eqf stQ (sar (sig * wave.get (((i + 3) % 4).toNat)) 9)
    let outA1 := fun k => if k = i then (oy * 16, sar oi 3, sar oq 3) else outA k
    eqLineGo inp pos bright wave stY1 stI1 stQ1 outA1 (i + 1) rem

/-- The halve-and-add temporal blend of crt.c line 660: clear the low bit
of the red and green bytes of both packed pixels, halve each, add. -/
def pixBlend (aa prior : Nat) : Nat :=
  ((aa &&& 0xfefeff) >>> 1) + ((prior &&& 0xfefeff) >>> 1)

/-- One output pixel of the resampling loop (crt.c lines 628 to 660): the
loop variable pos is the unsigned 32-bit scan position, so `pos >> 12` is a
logical shift and `pos & 0xfff` the low bits; interpolate the two
neighbouring YIQ samples, convert to RGB with contrast scaling, clamp each
channel to [0, 255], pack, and blend halve-and-add with the prior content of
the output location. -/
def drawPixel (outA : Int → Int × Int × Int) (pos : Nat) (contrast : Int)
    (prior : Nat) : Nat :=
  let R : Int := ((pos % 4096 : Nat) : Int)
  let L : Int := 4095 - R
  let sIdx : Int := ((pos / 4096 : Nat) : Int)
  let A := outA sIdx
  let B := outA (sIdx + 1)
  let y := sar (A.1 * L) 2 + sar (B.1 * R) 2
  let i := sar (A.2.1 * L) 14 + sar (B.2.1 * R) 14
  let q := sar (A.2.2 * L) 14 + sar (B.2.2 * R) 14
  let r0 := sar (sar (y + 3879 * i + 2556 * q) 12 * contrast) 8
  let g0 := sar (sar (y - 1126 * i - 2605 * q) 12 * contrast) 8
  let b0 := sar (sar (y - 4530 * i + 7021 * q) 12 * contrast) 8
  let r := if r0 < 0 then 0 else if r0 > 255 then 255 else r0
  let g := if g0 < 0 then 0 else if g0 > 255 then 255 else g0
  let b := if b0 < 0 then 0 else if b0 > 255 then 255 else b0
  let aa : Nat := r.toNat <<< 16 ||| g.toNat <<< 8 ||| b.toNat
  pixBlend aa prior

/-- The resampling loop: while the unsigned pos is below scanR and output
cells remain (the fuel is the cell count outw), write one blended pixel and
advance pos by dx with 32-bit unsigned wrap-around. -/
def resampGo (outA : Int → Int × Int × Int) (contrast dx : Int)
    (out : Int → Nat) (cL : Int) (pos : Nat) : Nat → (Int → Nat)
  | 0 => out
  | rem + 1 =>
    if pos < (AV_LEN - 1) * 4096 then
      let px := drawPixel outA pos contrast (out cL)
      let out1 := fun k => if k = cL then px else out k
      resampGo outA contrast dx out1 (cL + 1)
        ((((pos : Int) + dx) % 2 ^ 32).toNat) rem
    else out

/-- Duplicate rows (crt.c lines 663 to 667): copy row sIdx - 1 onto row
sIdx, sequentially for the remaining mapped rows. -/
def dupRowsGo (outw : Int) (out : Int → Nat) (sIdx : Int) : Nat → (Int → Nat)
  | 0 => out
  | rem + 1 =>
    dupRowsGo outw
      (fun k => if sIdx * outw ≤ k ∧ k < sIdx * outw + outw then out (k - outw)
                else out k)
      (sIdx + 1) rem

/-- The per-line state threaded through the scanline loop of crt_draw. -/
structure DrawState where
  hsync : Int
  ccref : CC4
  prev_e : Int
  out : Int → Nat

/-- One scanline of the decode loop (crt.c lines 546 to 668).  A line whose
first mapped output row falls outside the output is skipped entirely
(the continue of the source), leaving every state component unchanged. -/
def lineStep (g : Globals) (v : CRT) (inp : Int → Int) (vsync fieldOff maxE : Int)
    (st : DrawState) (line : Nat) : DrawState :=
  let beg := Int.tdiv (((line : Int) - CRT_TOP) * v.outh) (CRT_LINES : Int) + fieldOff
  let endRow0 := Int.tdiv (((line : Int) - CRT_TOP + 1) * v.outh) (CRT_LINES : Int) + fieldOff
  if beg ≥ v.outh then st else
  let endRow := if endRow0 > v.outh then v.outh else endRow0
  let ln := POSMOD ((line : Int) + vsync) (CRT_VRES : Int) * CRT_HRES
  let i := hsyncGo inp (ln + st.hsync) 0 (-(HSYNC_WINDOW : Int)) (2 * HSYNC_WINDOW)
  let hsync := POSMOD (i + st.hsync) (CRT_HRES : Int)
  -- burst at the 4-aligned offset: hsync & ~3 clears the low two bits
  let ccref := burstLoop inp (ln + (hsync - hsync % 4)) st.ccref
  let pos := scanPos hsync vsync (line : Int)
  let pa := (pos % 4).toNat
  let dci := ccref.get (pa + 1) - ccref.get (pa + 3)
  let dcq := ccref.get (pa + 2) - ccref.get (pa + 0)
  let wave := waveTab dci dcq v.saturation
  let s := scanSumGo inp pos 0 0 AV_LEN
  let prev_e := Int.tdiv (st.prev_e * 123) 128
      + Int.tdiv ((sar maxE 1 - s) * 1024) maxE
  let line_w := ((AV_LEN * 112 / 128 : Nat) : Int) + sar prev_e 9
  let dx := Int.tdiv (line_w * 4096) v.outw
  let scanL := (((AV_LEN / 2 : Nat) : Int) - sar line_w 1 + 8) * 4096
  let scanR : Int := (((AV_LEN - 1 : Nat) : Int)) * 4096
  let L := sar scanL 12
  let R := sar scanR 12
  let bright := v.brightness - (BLACK_LEVEL + v.black_point)
  let outA := eqLineGo inp pos bright wave
      (reset_eq g.eqY) (reset_eq g.eqI) (reset_eq g.eqQ)
      (fun _ => (0, 0, 0)) L (R - L).toNat
  let out1 := resampGo outA v.contrast dx st.out (beg * v.outw)
      ((scanL % 2 ^ 32).toNat) v.outw.toNat
  let out2 := dupRowsGo v.outw out1 (beg + 1) (endRow - (beg + 1)).toNat
  { hsync := hsync, ccref := ccref, prev_e := prev_e, out := out2 }

/-- The body of crt_draw after the noise injection: vertical sync
acquisition, geometry, and the sequential scanline loop.  The analog buffer
is only read, never written. -/
def drawBody (g : Globals) (v : CRT) (noise : Int) (inp : Int → Int) : CRT :=
  let vs := vsyncScan inp v.vsync
  let vsync := vs.1
  let fieldBit := vsyncFieldBit vs.2
  let maxE := (128 + Int.tdiv noise 2) * (AV_LEN : Int)
  let ratio := sar (Int.tdiv (v.outh * 2 ^ 16) (CRT_LINES : Int) + 32768) 16
  let fieldOff := fieldBit * Int.tdiv ratio 2
  let st0 : DrawState :=
    { hsync := v.hsync, ccref := ⟨0, 0, 0, 0⟩, prev_e := 16384 / 8, out := v.out }
  let stF := (List.range CRT_LINES).foldl
      (fun st k => lineStep g v inp vsync fieldOff maxE st (CRT_TOP + k)) st0
  { v with inp := inp, vsync := vsync, hsync := stF.hsync, out := stF.out }

/-- crt_draw of crt.c: build the noise-perturbed working copy from the
analog buffer, then decode it into the output buffer.  The hidden
generator state rn (a function-local static of the source, persisting
across calls) is threaded explicitly: the call consumes and returns it. -/
def crt_draw (g : Globals) (v : CRT) (noise : Int) (rn : Int) : CRT × Int :=
  (drawBody g v noise (mkInp v.analog v.inp noise rn),
   lcgIter rn CRT_INPUT_SIZE)

attribute [ext] EQF

/-- Freshly configured equalizer, matching init_eq of crt.c: the struct is
zeroed, then the gains and the two smoothing coefficients are set.  The
fixed-point coefficient derivation happens at configuration time outside
the claims, so the coefficients here are arbitrary. -/
def mkEQF (lf hf g0 g1 g2 : Int) : EQF :=
  ⟨lf, hf, g0, g1, g2, 0, 0, 0, 0, 0, 0, 0, 0, 0, 0, 0⟩

/-- eqf never changes the configuration fields of the filter. -/
theorem eqf_config (f : EQF) (s : Int) :
    (eqf f s).1.lf = f.lf ∧ (eqf f s).1.hf = f.hf ∧ (eqf f s).1.g0 = f.g0
    ∧ (eqf f s).1.g1 = f.g1 ∧ (eqf f s).1.g2 = f.g2 :=
  ⟨rfl, rfl, rfl, rfl, rfl⟩

/-- Running eqf over a sample list never changes the configuration fields. -/
theorem eqRun_config (xs : List Int) : ∀ f : EQF,
    (eqRun f xs).2.lf = f.lf ∧ (eqRun f xs).2.hf = f.hf
    ∧ (eqRun f xs).2.g0 = f.g0 ∧ (eqRun f xs).2.g1 = f.g1
    ∧ (eqRun f xs).2.g2 = f.g2 := by
  induction xs with
  | nil => intro f; exact ⟨rfl, rfl, rfl, rfl, rfl⟩
  | cons x xs ih =>
    intro f
    simpa [eqRun] using ih (eqf f x).1

/-- C6, counterexample: at the first step after a reset the pre-gain band
sum of the equalizer is 0 whatever the input sample is, so for the input
1000 it misses the input by 1000, far beyond any rounding tolerance: the
per-sample band sum does not reconstruct the current input sample. -/
theorem c6_counterexample :
    eqfBandSum (eqfCascade (mkEQF 4000 12000 65536 8192 9175) 1000) = 0
    ∧ ¬ ((1000 : Int)
        - eqfBandSum (eqfCascade (mkEQF 4000 12000 65536 8192 9175) 1000) ≤ 16) := by
  constructor
  · rfl
  · decide

/-- C6, amended: the sum of the three bands before gain scaling telescopes
exactly to the oldest raw-history entry, i.e. to the input sample fed three
steps earlier; there is no rounding error at all.  First conjunct: the band
sum of any per-sample step equals the pre-step oldest history entry.
Second conjunct: after three further eqf steps with inputs a, b, c, the band
sum of the next step equals a exactly. -/
theorem c6_band_telescope : ∀ (f : EQF) (a b c d : Int),
    eqfBandSum (eqfCascade f d) = f.h2
    ∧ eqfBandSum (eqfCascade (eqf (eqf (eqf f a).1 b).1 c).1 d) = a := by
  intro f a b c d
  constructor
  · simp [eqfBandSum, eqfBands, eqfCascade]
  · simp [eqfBandSum, eqfBands, eqfCascade, eqf, eqfPush]

/-- C7: for every equalizer configuration and every finite input sequence,
running the sequence from the freshly configured filter, resetting, and
running the identical sequence again gives identical outputs: reset
restores exactly the configured state, so no filter state leaks. -/
theorem c7_reset_independence : ∀ (lf hf g0 g1 g2 : Int) (xs : List Int),
    (eqRun (mkEQF lf hf g0 g1 g2) xs).1
      = (eqRun (reset_eq (eqRun (mkEQF lf hf g0 g1 g2) xs).2) xs).1 := by
  intro lf hf g0 g1 g2 xs
  obtain ⟨h1, h2, h3, h4, h5⟩ := eqRun_config xs (mkEQF lf hf g0 g1 g2)
  have hres : reset_eq (eqRun (mkEQF lf hf g0 g1 g2) xs).2 = mkEQF lf hf g0 g1 g2 := by
    ext <;> simp_all [reset_eq, mkEQF]
  rw [hres]

/-- Claimed burst update law following the words of the spec: an exponential
moving average in which the new sample has weight 1 / 128 and the old
accumulator value has weight 127 / 128. -/
def burstUpdateSpecEMA (c s : Int) : Int := Int.tdiv (c * 127 + s) 128

/-- C2, counterexample: with accumulator 0 and burst sample 128 the code
adds the full sample, giving 128, while an update in which the new sample
contributes with weight about 1 / 128 gives 1: the newly read sample enters
at full weight, not at weight 1 / 128. -/
theorem c2_counterexample :
    burstUpdate 0 128 = 128 ∧ burstUpdateSpecEMA 0 128 = 1
    ∧ burstUpdate 0 128 ≠ burstUpdateSpecEMA 0 128 := by
  decide

/-- C2, amended: over the burst window each of the four phase-bucketed
accumulators is the 10-fold iteration, over the samples at its own
positions (congruent modulo 4), of the update that keeps 127 / 128 of the
previous value (C truncating division) and adds the newly read sample at
full weight.  The accumulator hence tracks 128 times a moving average of
its burst samples. -/
theorem c2_burst_buckets : ∀ (c : CC4) (inp : Int → Int) (base : Int),
    burstLoop inp base c =
      ⟨List.foldl burstUpdate c.c0
         [inp (base + 100), inp (base + 104), inp (base + 108), inp (base + 112),
          inp (base + 116), inp (base + 120), inp (base + 124), inp (base + 128),
          inp (base + 132), inp (base + 136)],
       List.foldl burstUpdate c.c1
         [inp (base + 97), inp (base + 101), inp (base + 105), inp (base + 109),
          inp (base + 113), inp (base + 117), inp (base + 121), inp (base + 125),
          inp (base + 129), inp (base + 133)],
       List.foldl burstUpdate c.c2
         [inp (base + 98), inp (base + 102), inp (base + 106), inp (base + 110),
          inp (base + 114), inp (base + 118), inp (base + 122), inp (base + 126),
          inp (base + 130), inp (base + 134)],
       List.foldl burstUpdate c.c3
         [inp (base + 99), inp (base + 103), inp (base + 107), inp (base + 111),
          inp (base + 115), inp (base + 119), inp (base + 123), inp (base + 127),
          inp (base + 131), inp (base + 135)]⟩ := by
  intro c inp base
  rfl

/-- C4: every sample the noise injection loop writes into the working copy
is clamped into [-127, 127], for every signal content, noise level and
generator state. -/
theorem c4_noise_clamped : ∀ (analog inp0 : Int → Int) (noise rn i : Int),
    0 ≤ i → i < (CRT_INPUT_SIZE : Int) →
    -127 ≤ mkInp analog inp0 noise rn i ∧ mkInp analog inp0 noise rn i ≤ 127 := by
  intro analog inp0 noise rn i h0 h1
  have hw : mkInp analog inp0 noise rn i
      = noisedSample (analog i) (lcgIter rn (i.toNat + 1)) noise := by
    simp [mkInp, h0, h1]
  rw [hw]
  unfold noisedSample
  dsimp only
  split
  · omega
  · split <;> omega

/-- C4, witness at the concrete index 0 of an all-zero context. -/
theorem c4_witness :
    -127 ≤ mkInp (fun _ => 0) (fun _ => 0) 0 0 0
    ∧ mkInp (fun _ => 0) (fun _ => 0) 0 0 0 ≤ 127 :=
  c4_noise_clamped (fun _ => 0) (fun _ => 0) 0 0 0 (by decide) (by decide)

/-- C8: a decode call never modifies the analog signal buffer; the noise is
written only into the separate working copy. -/
theorem c8_analog_preserved : ∀ (g : Globals) (v : CRT) (noise rn : Int),
    ((crt_draw g v noise rn).1).analog = v.analog := by
  intro g v noise rn
  rfl

/-- Half of a masked packed pixel is at most 0x7f7f7f. -/
theorem pixHalf_le (x : Nat) : (x &&& 0xfefeff) >>> 1 ≤ 0x7f7f7f := by
  have h1 : x &&& 0xfefeff ≤ 0xfefeff := Nat.and_le_right
  rw [Nat.shiftRight_eq_div_pow]
  omega

/-- C5: every pixel the resampling loop writes (YIQ interpolation, RGB
conversion, contrast scaling, clamping, packing, and the halve-and-add
blend with the arbitrary prior content of the location) is a packed value
at most 0xfefefe, so red, green and blue each lie in [0, 255] (they are
nonnegative because the value is a Nat bit pattern). -/
theorem c5_pixel_bounds : ∀ (outA : Int → Int × Int × Int) (pos : Nat)
    (contrast : Int) (prior : Nat),
    drawPixel outA pos contrast prior ≤ 0xfefefe
    ∧ drawPixel outA pos contrast prior >>> 16 ≤ 255
    ∧ (drawPixel outA pos contrast prior >>> 8) % 256 ≤ 255
    ∧ drawPixel outA pos contrast prior % 256 ≤ 255 := by
  intro outA pos contrast prior
  obtain ⟨a, ha⟩ : ∃ a, drawPixel outA pos contrast prior = pixBlend a prior :=
    ⟨_, rfl⟩
  rw [ha]
  have hb : pixBlend a prior ≤ 0xfefefe := by
    have h1 := pixHalf_le a
    have h2 := pixHalf_le prior
    unfold pixBlend
    omega
  refine ⟨hb, ?_, ?_, ?_⟩
  · rw [Nat.shiftRight_eq_div_pow]
    omega
  · omega
  · omega

/-- The pseudo-random perturbation vanishes at noise level 0, whatever the
generator state is. -/
theorem noiseOf_zero (rn : Int) : noiseOf rn 0 = 0 := by
  simp [noiseOf, sar]

/-- At noise level 0 the working copy does not depend on the hidden
generator state. -/
theorem mkInp_zero_noise (analog inp0 : Int → Int) (rn1 rn2 : Int) :
    mkInp analog inp0 0 rn1 = mkInp analog inp0 0 rn2 := by
  funext i
  unfold mkInp
  split
  · unfold noisedSample
    rw [noiseOf_zero, noiseOf_zero]
  · rfl

/-- C9: with zero noise, encode followed by decode writes bit-identical
output buffer contents on every run from the same starting state; in
particular the result does not depend on the hidden noise generator state,
which is the only piece of state that differs between two consecutive runs
of the pure pipeline. -/
theorem c9_determinism : ∀ (g : Globals) (v : CRT) (s : NTSC_SETTINGS)
    (rn1 rn2 : Int),
    ((crt_draw g (crt_2ntsc g v s) 0 rn1).1).out
      = ((crt_draw g (crt_2ntsc g v s) 0 rn2).1).out := by
  intro g v s rn1 rn2
  simp only [crt_draw]
  rw [mkInp_zero_noise (crt_2ntsc g v s).analog (crt_2ntsc g v s).inp rn1 rn2]

/-- The set of analog buffer indices that a crt_2ntsc call assigns: the
whole vertical blanking block and every line above the visible band, the
blanking portion (up to AV_BEG) of every line, and the centered destination
window of the render pass.  The color burst window lies inside the blanking
portion, so the color flag does not change the set. -/
def encWritten (idx : Int) : Prop :=
  0 ≤ idx ∧ idx < (CRT_INPUT_SIZE : Int)
  ∧ (idx.toNat / CRT_HRES < CRT_TOP ∨ idx.toNat % CRT_HRES < AV_BEG
     ∨ (encYO ≤ idx.toNat / CRT_HRES ∧ idx.toNat / CRT_HRES < encYO + encDestH
        ∧ encXO ≤ idx.toNat % CRT_HRES ∧ idx.toNat % CRT_HRES < encXO + encDestW))

/-- All-zero global filter bank, for the concrete instances. -/
def encG0 : Globals :=
  ⟨mkEQF 0 0 0 0 0, mkEQF 0 0 0 0 0, mkEQF 0 0 0 0 0, ⟨0, 0⟩, ⟨0, 0⟩, ⟨0, 0⟩⟩

/-- Concrete settings: a one-pixel black source, even field, color off. -/
def encS0 : NTSC_SETTINGS := ⟨fun _ => 0, 1, 1, 0, 0⟩

/-- Concrete context whose analog buffer holds 50 everywhere; the
calibration values are the crt_reset defaults. -/
def encV50 : CRT :=
  ⟨fun _ => 50, fun _ => 0, 0, 0, 18, 0, 179, 0, 100, 0, 0, fun _ => 0⟩

/-- The same context with 99 in the analog buffer instead. -/
def encV99 : CRT := { encV50 with analog := fun _ => 99 }

/-- C1, counterexample: index 19589 is sample 500 of line 21, inside the
active-video region of a visible line but left of the rendered destination
window.  A crt_2ntsc call leaves the prior buffer value there: two calls
that differ only in the prior analog contents still differ there
afterwards, so the call does not assign every sample. -/
theorem c1_counterexample :
    (crt_2ntsc encG0 encV50 encS0).analog 19589 = 50
    ∧ (crt_2ntsc encG0 encV99 encS0).analog 19589 = 99 := by
  constructor <;> rfl

/-- Concrete values of the derived timing constants. -/
theorem encConsts_val :
    SYNC_BEG = 21 ∧ BW_BEG = 88 ∧ CB_BEG = 97 ∧ AV_BEG = 156 ∧ AV_LEN = 752
    ∧ CRT_LINES = 240 ∧ CRT_INPUT_SIZE = 238158
    ∧ encDestW = 636 ∧ encDestH = 232 ∧ encXO = 216 ∧ encYO = 29 := by
  refine ⟨rfl, rfl, rfl, rfl, rfl, rfl, rfl, rfl, rfl, rfl, rfl⟩

set_option maxHeartbeats 1000000 in
/-- C1, amended: a crt_2ntsc call assigns exactly the samples of the
encWritten region (all blanking and sync portions, all lines above the
visible band, and the centered destination window); every sample outside
that region keeps its prior value.  First conjunct: outside the region the
buffer is unchanged.  Second conjunct: inside the region the written value
does not depend on the prior analog contents. -/
theorem c1_partial_overwrite : ∀ (g : Globals) (v : CRT) (s : NTSC_SETTINGS)
    (a1 a2 : Int → Int) (idx : Int),
    (¬ encWritten idx → 0 ≤ idx → idx < (CRT_INPUT_SIZE : Int) →
      (crt_2ntsc g { v with analog := a1 } s).analog idx = a1 idx)
    ∧ (encWritten idx →
      (crt_2ntsc g { v with analog := a1 } s).analog idx
        = (crt_2ntsc g { v with analog := a2 } s).analog idx) := by
  intro g v s a1 a2 idx
  obtain ⟨e1, e2, e3, e4, e5, e6, e7, e8, e9, e10, e11⟩ := encConsts_val
  have htlt : idx.toNat % CRT_HRES < CRT_HRES := Nat.mod_lt _ (by decide)
  constructor
  · intro hnw h0 h1
    have hd : ¬ (idx.toNat / CRT_HRES < CRT_TOP ∨ idx.toNat % CRT_HRES < AV_BEG
        ∨ (encYO ≤ idx.toNat / CRT_HRES ∧ idx.toNat / CRT_HRES < encYO + encDestH
           ∧ encXO ≤ idx.toNat % CRT_HRES
           ∧ idx.toNat % CRT_HRES < encXO + encDestW)) :=
      fun hdisj => hnw ⟨h0, h1, hdisj⟩
    push_neg at hd
    obtain ⟨hd1, hd2, hd3⟩ := hd
    simp only [crt_2ntsc]
    unfold encSyncLineAt
    simp only [e1, e2, e3, e4, e5, e6, e7, e8, e9, e10, e11, CRT_TOP,
      CRT_HRES, CB_CYCLES, CRT_CB_FREQ] at hd1 hd2 hd3 htlt ⊢
    norm_num at hd3 ⊢
    split_ifs <;> first | rfl | omega
  · intro hw
    obtain ⟨h0, h1, hdisj⟩ := hw
    simp only [crt_2ntsc]
    unfold encSyncLineAt
    simp only [e1, e2, e3, e4, e5, e6, e7, e8, e9, e10, e11, CRT_TOP,
      CRT_HRES, CB_CYCLES, CRT_CB_FREQ] at hdisj htlt ⊢
    norm_num at hdisj ⊢
    split_ifs <;> first | rfl | omega

instance encWrittenDecidable (idx : Int) : Decidable (encWritten idx) := by
  unfold encWritten
  infer_instance

/-- C1, witness for the amended theorem at the concrete unwritten index
19589 of the all-50 context. -/
theorem c1_witness :
    (crt_2ntsc encG0 { encV50 with analog := fun _ => 50 } encS0).analog 19589
      = 50 :=
  (c1_partial_overwrite encG0 encV50 encS0 (fun _ => 50) (fun _ => 99)
    19589).1 (by decide) (by decide) (by decide)

/-- Running sum of the first j samples of one line: the left-to-right
integration described by the claim. -/
def lineSum (sig : Nat → Int) : Nat → Int
  | 0 => 0
  | j + 1 => lineSum sig j + sig j

/-- The first position of a line at which the running sum has fallen to the
threshold, following the words of the claim. -/
def lineFirstCross (inp : Int → Int) (line : Int) : Option Nat :=
  (List.range' 0 CRT_HRES).find?
    (fun j => decide (lineSum (fun k => inp (line * CRT_HRES + (k : Int))) (j + 1)
      ≤ 100 * SYNC_LEVEL))

/-- The inner sync scan started at position j with the running sum of the
first j samples finds exactly the first crossing position at or after j. -/
theorem lineScanGo_eq_find (sig : Nat → Int) : ∀ (rem j : Nat),
    lineScanGo sig (lineSum sig j) j rem
      = (List.range' j rem).find?
          (fun k => decide (lineSum sig (k + 1) ≤ 100 * SYNC_LEVEL)) := by
  intro rem
  induction rem with
  | zero => intro j; rfl
  | succ rem ih =>
    intro j
    rw [List.range'_succ, List.find?]
    have hstep : lineSum sig j + sig j = lineSum sig (j + 1) := rfl
    by_cases h : lineSum sig (j + 1) ≤ 100 * SYNC_LEVEL
    · simp [lineScanGo, hstep, h]
    · simp [lineScanGo, hstep, h, ih (j + 1)]

/-- The per-line scan of the decoder computes the first crossing position of
the running sum. -/
theorem lineScan_eq (inp : Int → Int) (line : Int) :
    lineScan inp line = lineFirstCross inp line :=
  lineScanGo_eq_find (fun k => inp (line * CRT_HRES + (k : Int))) CRT_HRES 0

/-- A crossing position returned by the per-line scan lies inside the
line. -/
theorem lineScan_lt (inp : Int → Int) (line : Int) (j : Nat)
    (h : lineScan inp line = some j) : j < CRT_HRES := by
  rw [lineScan_eq, lineFirstCross] at h
  have hm := List.mem_of_find?_eq_some h
  have := List.mem_range'_1.mp hm
  omega

/-- Characterization of the window scan of the vertical sync search, for
any starting counter and fuel: either some line of the window crosses, and
the result is the earliest such line with its crossing position, or no line
crosses and the result keeps the last scanned line with the counter value
CRT_HRES. -/
theorem vsyncGo_char (inp : Int → Int) (vs : Int) : ∀ (rem : Nat) (i : Int),
    (∃ i0 : Int, ∃ j : Nat, i ≤ i0 ∧ i0 < i + (rem : Int)
      ∧ vsyncGo inp vs i rem = (POSMOD (vs + i0) CRT_VRES, j)
      ∧ lineScan inp (POSMOD (vs + i0) CRT_VRES) = some j
      ∧ (∀ i1 : Int, i ≤ i1 → i1 < i0 →
          lineScan inp (POSMOD (vs + i1) CRT_VRES) = none))
    ∨ ((∀ i1 : Int, i ≤ i1 → i1 < i + (rem : Int) →
          lineScan inp (POSMOD (vs + i1) CRT_VRES) = none)
        ∧ vsyncGo inp vs i rem
            = (POSMOD (vs + i + (rem : Int) - 1) CRT_VRES, CRT_HRES)) := by
  intro rem
  induction rem with
  | zero =>
    intro i
    right
    refine ⟨fun i1 h1 h2 => ?_, by simp [vsyncGo]⟩
    push_cast at h2
    omega
  | succ rem ih =>
    intro i
    cases hls : lineScan inp (POSMOD (vs + i) CRT_VRES) with
    | some j =>
      left
      refine ⟨i, j, le_refl i, by push_cast; omega, by simp [vsyncGo, hls], hls,
        fun i1 hle hlt => absurd (lt_of_le_of_lt hle hlt) (lt_irrefl i)⟩
    | none =>
      have hstep : vsyncGo inp vs i (rem + 1) = vsyncGo inp vs (i + 1) rem := by
        simp [vsyncGo, hls]
      rcases ih (i + 1) with ⟨i0, j, hge, hlt, heq, hsome, hmin⟩ | ⟨hnone, heq⟩
      · left
        refine ⟨i0, j, by omega, by push_cast at hlt ⊢; omega,
          hstep.trans heq, hsome, ?_⟩
        intro i1 h1 h2
        rcases eq_or_lt_of_le h1 with he | hl
        · rw [← he]
          exact hls
        · exact hmin i1 (by omega) h2
      · right
        constructor
        · intro i1 h1 h2
          rcases eq_or_lt_of_le h1 with he | hl
          · rw [← he]
            exact hls
          · refine hnone i1 (by omega) ?_
            push_cast at h2 ⊢
            omega
        · rw [hstep, heq]
          have harg : vs + (i + 1) + (rem : Int) - 1
              = vs + i + ((rem + 1 : Nat) : Int) - 1 := by
            push_cast
            ring
          rw [harg]

/-- C3, amended: the vertical sync acquisition scans the window of 16
candidate lines starting 8 before the previous vsync line, keeps a
left-to-right running sum per candidate, accepts the first line whose
running sum falls to the threshold or below (at the first such position j
of that line, j < CRT_HRES), and otherwise keeps the last scanned line with
the stop position equal to CRT_HRES; the inferred field parity is 1 exactly
when the stop position - the crossing position, or the line length when no
line crossed - lies in the second half of the line.  In the give-up case
the parity is therefore 1 although no crossing occurred. -/
theorem c3_vsync_characterization : ∀ (inp : Int → Int) (vs : Int),
    (∀ line : Int, lineScan inp line = lineFirstCross inp line)
    ∧ ((∃ i0 : Int, -(VSYNC_WINDOW : Int) ≤ i0 ∧ i0 < VSYNC_WINDOW
          ∧ (vsyncScan inp vs).1 = POSMOD (vs + i0) CRT_VRES
          ∧ lineScan inp (POSMOD (vs + i0) CRT_VRES) = some (vsyncScan inp vs).2
          ∧ (vsyncScan inp vs).2 < CRT_HRES
          ∧ ∀ i1 : Int, -(VSYNC_WINDOW : Int) ≤ i1 → i1 < i0 →
              lineScan inp (POSMOD (vs + i1) CRT_VRES) = none)
        ∨ ((∀ i1 : Int, -(VSYNC_WINDOW : Int) ≤ i1 → i1 < (VSYNC_WINDOW : Int) →
              lineScan inp (POSMOD (vs + i1) CRT_VRES) = none)
            ∧ vsyncScan inp vs
                = (POSMOD (vs + (VSYNC_WINDOW : Int) - 1) CRT_VRES, CRT_HRES)))
    ∧ (vsyncFieldBit (vsyncScan inp vs).2 = 1
        ↔ CRT_HRES / 2 < (vsyncScan inp vs).2) := by
  intro inp vs
  refine ⟨fun line => lineScan_eq inp line, ?_, ?_⟩
  · rcases vsyncGo_char inp vs (2 * VSYNC_WINDOW) (-(VSYNC_WINDOW : Int))
        with ⟨i0, j, hge, hlt, heq, hsome, hmin⟩ | ⟨hnone, heq⟩
    · left
      have hj : (vsyncScan inp vs).2 = j := by
        rw [vsyncScan, heq]
      refine ⟨i0, hge, by push_cast at hlt; norm_num [VSYNC_WINDOW] at hlt ⊢; omega,
        ?_, ?_, hj ▸ lineScan_lt inp _ j hsome, hmin⟩
      · rw [vsyncScan, heq]
      · rw [hj]
        exact hsome
    · right
      refine ⟨fun i1 h1 h2 => hnone i1 h1 (by push_cast at h2 ⊢; norm_num [VSYNC_WINDOW] at h2 ⊢; omega), ?_⟩
      rw [vsyncScan, heq]
      have harg : vs + -(VSYNC_WINDOW : Int) + ((2 * VSYNC_WINDOW : Nat) : Int) - 1
          = vs + (VSYNC_WINDOW : Int) - 1 := by
        norm_num [VSYNC_WINDOW]
        omega
      rw [harg]
  · unfold vsyncFieldBit
    split_ifs with h
    · simp [h]
    · simp [h]

/-- Zero samples never cross the negative threshold. -/
theorem lineScanGo_zero : ∀ (rem j : Nat),
    lineScanGo (fun _ => (0 : Int)) 0 j rem = none := by
  intro rem
  induction rem with
  | zero => intro j; rfl
  | succ rem ih =>
    intro j
    simpa [lineScanGo] using ih (j + 1)

/-- On an all-zero working copy no line has a crossing. -/
theorem lineScan_zero (line : Int) : lineScan (fun _ => 0) line = none :=
  lineScanGo_zero CRT_HRES 0

/-- On an all-zero working copy the window scan always gives up at the
window edge. -/
theorem vsyncGo_zero (vs : Int) : ∀ (rem : Nat) (i : Int),
    vsyncGo (fun _ => 0) vs i rem
      = (POSMOD (vs + i + (rem : Int) - 1) CRT_VRES, CRT_HRES) := by
  intro rem
  induction rem with
  | zero => intro i; simp [vsyncGo]
  | succ rem ih =>
    intro i
    have hstep : vsyncGo (fun _ => (0 : Int)) vs i (rem + 1)
        = vsyncGo (fun _ => 0) vs (i + 1) rem := by
      simp [vsyncGo, lineScan_zero]
    rw [hstep, ih (i + 1)]
    have harg : vs + (i + 1) + (rem : Int) - 1
        = vs + i + ((rem + 1 : Nat) : Int) - 1 := by
      push_cast
      ring
    rw [harg]

/-- C3, counterexample: on an all-zero working copy with previous vsync 0
the scan gives up at the window edge (line 7), the stop position is the full
line length CRT_HRES, and the inferred field parity is 1 - although no
threshold crossing occurred on any line (in particular not on the chosen
line), so the parity is not 1 exactly when a crossing occurred in the
second half. -/
theorem c3_counterexample :
    vsyncScan (fun _ => 0) 0 = (7, CRT_HRES)
    ∧ lineScan (fun _ => 0) 7 = none
    ∧ vsyncFieldBit CRT_HRES = 1 := by
  refine ⟨?_, lineScan_zero 7, by decide⟩
  have h := vsyncGo_zero 0 (2 * VSYNC_WINDOW) (-(VSYNC_WINDOW : Int))
  exact h.trans (by decide)

/-- C10: offsets that the decoder adds to the POSMOD-reduced scan base can
push reads past the end of the working copy.  With stored hsync 702 and
vsync 1, both inside their claimed ranges, the active-video scan of the
visible line 260 reads up to index scanPos + AV_LEN - 1 = 238858, which is
past CRT_INPUT_SIZE = 238158. -/
theorem c10_overread_index :
    0 ≤ (702 : Int) ∧ (702 : Int) < (CRT_HRES : Int)
    ∧ 0 ≤ (1 : Int) ∧ (1 : Int) < (CRT_VRES : Int)
    ∧ CRT_TOP ≤ 260 ∧ 260 < CRT_BOT
    ∧ (CRT_INPUT_SIZE : Int) ≤ scanPos 702 1 260 + ((AV_LEN : Int) - 1) := by
  decide
